import Mathlib

/-
  Verification development for the runtime core of the spdlog-rs logging
  library: std-stream sink styling and flushing, logger dispatch, error
  handling, cloning, and the periodic flush worker.

  The definitions below are shallow embeddings of the Rust sources
  (`src/logger.rs`, `src/logger/basic_logger.rs`, `src/sink/mod.rs`,
  `spdlog/src/sink/std_stream_sink.rs`,
  `spdlog/src/formatter/pattern_formatter/pattern/full.rs`).
  I/O side effects (stream writes/flushes, error-handler invocations)
  are made observable as event traces.
-/

namespace Spdlog

/-- Modelled from the spec: the severity levels of the library (the `Level`
type itself is not among the provided sources). A smaller severity number
means a more severe level, matching the boundary examples of the spec
(`Warn` and more severe pass `MoreSevereOrEqual(Warn)`, `Info` and less
severe are rejected). -/
inductive Level
  | Critical
  | Error
  | Warn
  | Info
  | Debug
  | Trace
  deriving DecidableEq

def Level.severity : Level → Nat
  | .Critical => 0
  | .Error => 1
  | .Warn => 2
  | .Info => 3
  | .Debug => 4
  | .Trace => 5

/-- Modelled from the spec: the closed set of level-filter policies
(`Off`, `All`, `MoreSevereOrEqual(level)`, `Equal(level)`, …); the
`LevelFilter` type itself is not among the provided sources, only its
uses (`LevelFilter::MoreSevereEqual`, `LevelFilter::Off`, `.compare`)
are. -/
inductive LevelFilter
  | Off
  | All
  | MoreSevereEqual (level : Level)
  | Equal (level : Level)
  deriving DecidableEq

/-- Modelled from the spec: `compare` is a pure, total function of
(filter, candidate level). -/
def LevelFilter.compare : LevelFilter → Level → Bool
  | .Off, _ => false
  | .All, _ => true
  | .MoreSevereEqual l, x => x.severity ≤ l.severity
  | .Equal l, x => x.severity == l.severity

/-- The error values a sink can produce (variants from `Error::WriteRecord`
and `Error::FlushBuffer` in `std_stream_sink.rs`; the payload is an opaque
code). -/
inductive Error
  | WriteRecord (code : Nat)
  | FlushBuffer (code : Nat)
  | FormatRecord (code : Nat)
  deriving DecidableEq

/-- A log record: severity level plus the payload fields the default
formatter renders (message, timestamp, logger name), all immutable. -/
structure Record where
  level : Level
  msg : String
  timestamp : String
  logger_name : Option String
  deriving DecidableEq

-- ---------------------------------------------------------------------
-- Std-stream sink (spdlog/src/sink/std_stream_sink.rs)
-- ---------------------------------------------------------------------

/-- Embeds `StdStream`: the two available standard streams. -/
inductive StdStream
  | Stdout
  | Stderr
  deriving DecidableEq

/-- Embeds `StyleMode` from `terminal_style`: three-way styling mode. -/
inductive StyleMode
  | Always
  | Auto
  | Never
  deriving DecidableEq

/-- A style range: byte offsets into the formatted buffer (`start..end` in
the Rust source; the exclusive upper bound is called `stop` here because
`end` is a Lean keyword). -/
structure StyleRange where
  start : Nat
  stop : Nat
  deriving DecidableEq

/-- A level's escape-code pair (`style_code.start` / `style_code.end` in the
source). -/
structure StyleCode where
  startCode : List Nat
  endCode : List Nat
  deriving DecidableEq

/-- The platform facts queried by `StdStreamSink::should_render_style`:
interactivity of each stream (`is_terminal`) and the cached ANSI
capability probe (`enable_ansi_escape_sequences`). They are external
collaborators, so they enter the model as parameters. -/
structure Platform where
  stdout_is_terminal : Bool
  stderr_is_terminal : Bool
  enable_ansi_escape_sequences : Bool
  deriving DecidableEq

def Platform.stream_is_terminal (platform : Platform) : StdStream → Bool
  | .Stdout => platform.stdout_is_terminal
  | .Stderr => platform.stderr_is_terminal

/-- Embeds `StdStreamSink::should_render_style(style_mode, stream)`: `Always`
forces on, `Never` forces off, `Auto` requires an interactive terminal and
a successful capability probe. -/
def should_render_style (platform : Platform) (style_mode : StyleMode)
    (stream : StdStream) : Bool :=
  let is_terminal := platform.stream_is_terminal stream
  match style_mode with
  | .Always => true
  | .Auto => is_terminal && platform.enable_ansi_escape_sequences
  | .Never => false

/-- The state of a `StdStreamSink`: its level filter (via
`helper::CommonImpl`), destination stream, the precomputed
`should_render_style` flag and the per-level style-code table. -/
structure StdStreamSink where
  level_filter : LevelFilter
  dest : StdStream
  should_render_style : Bool
  level_style_codes : Level → StyleCode

/-- Embeds `Sink::should_log` (default implementation): compare the record level
against the sink's level filter. -/
def StdStreamSink.should_log (sink : StdStreamSink) (lvl : Level) : Bool :=
  sink.level_filter.compare lvl

/-- An observable effect of `StdStreamSink::log` / `flush` on the
destination stream: one `write_all` call with its payload bytes, or one
`flush` call. -/
inductive StreamEvent
  | write (bytes : List Nat)
  | flush
  deriving DecidableEq

/-- The `write_all` sequence issued by `StdStreamSink::log` for a formatted
buffer `buf` and the optional style range reported by the formatter
(the `if_chain` block of the source): when styling is on and a range
exists, five writes — bytes before the range, the level's start escape
code, bytes inside the range, the level's end escape code, bytes after the
range; otherwise a single write of the whole buffer. -/
def StdStreamSink.logWrites (sink : StdStreamSink) (lvl : Level)
    (buf : List Nat) (style_range : Option StyleRange) : List (List Nat) :=
  match sink.should_render_style, style_range with
  | true, some r =>
    let style_code := sink.level_style_codes lvl
    [buf.take r.start,
     style_code.startCode,
     (buf.drop r.start).take (r.stop - r.start),
     style_code.endCode,
     buf.drop r.stop]
  | _, _ => [buf]

/-- Embeds `StdStreamSink::log`: no-op when the level filter rejects; otherwise
the `write_all` sequence, followed by a `flush` exactly when the
destination is stdout (stderr is unbuffered and not flushed per record).
The buffer and style range stand for the result of the formatter, an
external collaborator at this interface. -/
def StdStreamSink.log (sink : StdStreamSink) (lvl : Level) (buf : List Nat)
    (style_range : Option StyleRange) : List StreamEvent :=
  if sink.should_log lvl = false then []
  else
    (sink.logWrites lvl buf style_range).map StreamEvent.write
      ++ (match sink.dest with
          | .Stdout => [StreamEvent.flush]
          | .Stderr => [])

/-- Embeds `StdStreamSink::flush`: flush the destination unconditionally. -/
def StdStreamSink.flushOp (_sink : StdStreamSink) : List StreamEvent :=
  [StreamEvent.flush]

/-- The payloads of the write calls in a stream-event trace. -/
def writesOf (events : List StreamEvent) : List (List Nat) :=
  events.filterMap fun e =>
    match e with
    | .write b => some b
    | .flush => none

def isFlushEvent : StreamEvent → Bool
  | .flush => true
  | .write _ => false

-- ---------------------------------------------------------------------
-- Logger dispatch core (src/logger.rs)
-- ---------------------------------------------------------------------

/-- A sink as the logger sees it (the `Sink` trait object): its level
filter and the outcomes of its `log` and `flush` operations. Outcomes are
data so that the dispatch loop of `Logger::sink_record` can be embedded
without I/O. -/
structure SinkModel where
  level_filter : LevelFilter
  logResult : Record → Option Error
  flushResult : Option Error

/-- Embeds `Sink::should_log` for a modelled sink. -/
def SinkModel.should_log (sink : SinkModel) (lvl : Level) : Bool :=
  sink.level_filter.compare lvl

/-- The handle of a live `PeriodicWorker` owned by a logger; the worker's
callback is modelled separately (`flushPeriodCallback`), so the handle only
records the interval it was started with. -/
structure PeriodicWorker where
  interval : Nat
  deriving DecidableEq

/-- The state of a `Logger`. The error handler is represented by an opaque
identity (`some id` when a handler is configured, `none` otherwise); its
invocations are recorded as events. -/
structure Logger where
  name : Option String
  level_filter : LevelFilter
  sinks : List SinkModel
  flush_level_filter : LevelFilter
  periodic_flusher : Option PeriodicWorker
  error_handler : Option Nat

/-- An observable effect of the logger dispatch loop: a `log` call on the
sink at a given position, a `flush` call on the sink at a given position,
an invocation of the configured error handler, or the default handler
printing a diagnostic line. -/
inductive LogEvent
  | sinkLogCall (index : Nat)
  | sinkFlushCall (index : Nat)
  | errorHandlerCall (err : Error)
  | defaultHandlerPrint (line : String) (err : Error)
  deriving DecidableEq

/-- The diagnostic prefix built by `Logger::handle_error`:
`format!("Logger ({})", name or "*no name*")`. -/
def Logger.diagnosticName (logger : Logger) : String :=
  "Logger (" ++ logger.name.getD "*no name*" ++ ")"

/-- Embeds `Logger::handle_error`: invoke the configured handler when one is set,
otherwise fall back to `default_error_handler` with the diagnostic name.
Modelled from the spec: `default_error_handler` itself is not among the
provided sources; per the spec it prints a single diagnostic line and
takes no other action, represented as the single `defaultHandlerPrint`
event. -/
def Logger.handle_error (logger : Logger) (err : Error) : LogEvent :=
  match logger.error_handler with
  | some _ => .errorHandlerCall err
  | none => .defaultHandlerPrint logger.diagnosticName err

/-- Embeds `Logger::should_log`: compare against the lock-free log level filter. -/
def Logger.should_log (logger : Logger) (lvl : Level) : Bool :=
  logger.level_filter.compare lvl

/-- Embeds `Logger::should_flush`: compare the record's level against the flush
level filter. -/
def Logger.should_flush (logger : Logger) (record : Record) : Bool :=
  logger.flush_level_filter.compare record.level

/-- The `for_each` loop of `Logger::sink_record`, instrumented with the
position of each sink: a sink whose filter accepts the record gets a `log`
call; on `Err` the error goes to `handle_error` and the loop continues
with the remaining sinks. -/
def dispatchFrom (logger : Logger) (record : Record) :
    Nat → List SinkModel → List LogEvent
  | _, [] => []
  | i, sink :: rest =>
    (if sink.should_log record.level then
      LogEvent.sinkLogCall i ::
        (match sink.logResult record with
         | none => []
         | some err => [logger.handle_error err])
    else [])
      ++ dispatchFrom logger record (i + 1) rest

/-- The `for_each` loop of `Logger::flush_sinks`, instrumented with the
position of each sink: every sink gets a `flush` call; on `Err` the error
goes to `handle_error` and the loop continues. -/
def flushFrom (logger : Logger) : Nat → List SinkModel → List LogEvent
  | _, [] => []
  | i, sink :: rest =>
    LogEvent.sinkFlushCall i ::
      ((match sink.flushResult with
        | none => []
        | some err => [logger.handle_error err])
        ++ flushFrom logger (i + 1) rest)

/-- Embeds `Logger::flush_sinks`. -/
def Logger.flush_sinks (logger : Logger) : List LogEvent :=
  flushFrom logger 0 logger.sinks

/-- Embeds `Logger::flush`. -/
def Logger.flush (logger : Logger) : List LogEvent :=
  logger.flush_sinks

/-- Embeds `Logger::sink_record`: dispatch to every sink, then a full flush pass
exactly when `should_flush` accepts the record. -/
def Logger.sink_record (logger : Logger) (record : Record) : List LogEvent :=
  dispatchFrom logger record 0 logger.sinks
    ++ (if logger.should_flush record then logger.flush else [])

/-- Embeds `Logger::log`: return immediately when the log level filter rejects
the record, otherwise `sink_record`. -/
def Logger.log (logger : Logger) (record : Record) : List LogEvent :=
  if !logger.should_log record.level then []
  else logger.sink_record record

/-- The message of the panic in `impl Clone for Logger`. -/
def cloneErrMsg : String :=
  "you can't clone a Logger with a flush_period value, clone a Arc<Logger> instead."

/-- Embeds `impl Clone for Logger`: panics (modelled as `Except.error`) when a
periodic flusher is live; otherwise copies name and both level filters,
shares the sink list, carries the error handler over, and starts with no
periodic flusher. -/
def Logger.clone (logger : Logger) : Except String Logger :=
  match logger.periodic_flusher with
  | some _ => .error cloneErrMsg
  | none =>
    .ok
      { name := logger.name
        level_filter := logger.level_filter
        sinks := logger.sinks
        flush_level_filter := logger.flush_level_filter
        periodic_flusher := none
        error_handler := logger.error_handler }

/-- A lifecycle action on periodic workers performed by
`Logger::set_flush_period`: terminating the existing worker (dropping the
old `PeriodicWorker` value) or starting a new one. -/
inductive WorkerAction
  | terminate
  | start (interval : Nat)
  deriving DecidableEq

/-- Embeds `Logger::set_flush_period`: first `*periodic_flusher = None`
(terminating any existing worker), then, when an interval is given, start
a new worker with that interval. Returns the new logger state and the
worker lifecycle actions in the order they happen. -/
def Logger.set_flush_period (logger : Logger) (interval : Option Nat) :
    Logger × List WorkerAction :=
  let dropActions :=
    match logger.periodic_flusher with
    | some _ => [WorkerAction.terminate]
    | none => []
  match interval with
  | some iv =>
    ({ logger with periodic_flusher := some { interval := iv } },
      dropActions ++ [WorkerAction.start iv])
  | none =>
    ({ logger with periodic_flusher := none }, dropActions)

/-- The callback installed by `Logger::set_flush_period`, as a function of
the result of upgrading the weak back-reference: on success it flushes all
sinks and returns `true` (continue); on failure (all `Arc`s dropped) it
returns `false` to quit the worker thread. -/
def flushPeriodCallback (resolved : Option Logger) : Bool × List LogEvent :=
  match resolved with
  | some strong => (true, strong.flush_sinks)
  | none => (false, [])

-- ---------------------------------------------------------------------
-- Event-trace observables
-- ---------------------------------------------------------------------

def isHandlerEvent : LogEvent → Bool
  | .errorHandlerCall _ => true
  | .defaultHandlerPrint _ _ => true
  | _ => false

def logCallIndex : LogEvent → Option Nat
  | .sinkLogCall i => some i
  | _ => none

def flushCallIndex : LogEvent → Option Nat
  | .sinkFlushCall i => some i
  | _ => none

/-- The positions of the sinks that received a `log` call, in call order. -/
def logCallIndices (events : List LogEvent) : List Nat :=
  events.filterMap logCallIndex

/-- The positions of the sinks that received a `flush` call, in call
order. -/
def flushCallIndices (events : List LogEvent) : List Nat :=
  events.filterMap flushCallIndex

/-- The positions, in insertion order starting at `i`, of the sinks whose
own level filter accepts a record of level `lvl` (the set of sinks the
claim says must be attempted). -/
def acceptedFrom (lvl : Level) : Nat → List SinkModel → List Nat
  | _, [] => []
  | i, sink :: rest =>
    if sink.should_log lvl then i :: acceptedFrom lvl (i + 1) rest
    else acceptedFrom lvl (i + 1) rest

-- ---------------------------------------------------------------------
-- BasicLogger (src/logger/basic_logger.rs), built on the `log` crate's
-- `Level` / `LevelFilter` / `Metadata` / `Record` types (external
-- collaborators; `metadata.level() <= self.level` compares their numeric
-- encodings, smaller = more severe, with `Off` below `Error`).
-- ---------------------------------------------------------------------

inductive LogCrateLevel
  | Error
  | Warn
  | Info
  | Debug
  | Trace
  deriving DecidableEq

def LogCrateLevel.toNat : LogCrateLevel → Nat
  | .Error => 1
  | .Warn => 2
  | .Info => 3
  | .Debug => 4
  | .Trace => 5

inductive LogCrateLevelFilter
  | Off
  | Error
  | Warn
  | Info
  | Debug
  | Trace
  deriving DecidableEq

def LogCrateLevelFilter.toNat : LogCrateLevelFilter → Nat
  | .Off => 0
  | .Error => 1
  | .Warn => 2
  | .Info => 3
  | .Debug => 4
  | .Trace => 5

/-- Embeds `log::Metadata`: the part of a record the `enabled` checks look at. -/
structure Metadata where
  level : LogCrateLevel
  deriving DecidableEq

/-- Embeds `log::Record` as consumed by `BasicLogger` (metadata plus an opaque
payload). -/
structure LogRecord where
  metadata : Metadata
  payload : String
  deriving DecidableEq

/-- Embeds `LogMsg::new(record)`: the message value handed to the sinks. -/
structure LogMsg where
  record : LogRecord
  deriving DecidableEq

def LogMsg.new (record : LogRecord) : LogMsg :=
  { record := record }

/-- A sink as `BasicLogger` sees it (the old `Sink` trait of
`src/sink/mod.rs`): a level filter and the outcome of `log`. -/
structure BasicSink where
  level : LogCrateLevelFilter
  logResult : LogMsg → Option Error

/-- Embeds `Sink::enabled` (default implementation):
`metadata.level() <= self.level()`. -/
def BasicSink.enabled (sink : BasicSink) (metadata : Metadata) : Bool :=
  metadata.level.toNat ≤ sink.level.toNat

/-- The state of a `BasicLogger`. -/
structure BasicLogger where
  level : LogCrateLevelFilter
  sinks : List BasicSink
  error_handler : Option Nat

/-- Embeds `log::Log::enabled` for `BasicLogger`:
`metadata.level() <= self.level`. -/
def BasicLogger.enabled (logger : BasicLogger) (metadata : Metadata) : Bool :=
  metadata.level.toNat ≤ logger.level.toNat

/-- The `for_each` loop of `BasicLogger::sink_record`, instrumented with
the position of each sink: an enabled sink gets a `log` call; on `Err` the
configured handler is invoked when one is set, and nothing happens
otherwise (there is no `else` branch in the source). -/
def basicDispatchFrom (logger : BasicLogger) (msg : LogMsg)
    (metadata : Metadata) : Nat → List BasicSink → List LogEvent
  | _, [] => []
  | i, sink :: rest =>
    (if sink.enabled metadata then
      LogEvent.sinkLogCall i ::
        (match sink.logResult msg with
         | none => []
         | some err =>
           match logger.error_handler with
           | some _ => [LogEvent.errorHandlerCall err]
           | none => [])
    else [])
      ++ basicDispatchFrom logger msg metadata (i + 1) rest

/-- Embeds `BasicLogger::sink_record`. -/
def BasicLogger.sink_record (logger : BasicLogger) (record : LogRecord) :
    List LogEvent :=
  basicDispatchFrom logger (LogMsg.new record) record.metadata 0 logger.sinks

/-- Embeds `log::Log::log` for `BasicLogger`: return immediately when `enabled`
rejects the record's metadata, otherwise `sink_record`. -/
def BasicLogger.log (logger : BasicLogger) (record : LogRecord) :
    List LogEvent :=
  if !logger.enabled record.metadata then []
  else logger.sink_record record

-- ---------------------------------------------------------------------
-- Full pattern (spdlog/src/formatter/pattern_formatter/pattern/full.rs)
-- ---------------------------------------------------------------------

/-- Modelled from the spec: the printed name of each severity level. -/
def levelName : Level → String
  | .Critical => "critical"
  | .Error => "error"
  | .Warn => "warn"
  | .Info => "info"
  | .Debug => "debug"
  | .Trace => "trace"

/-- Modelled from the spec: the canonical default rendering produced by
`FullFormatter` (which is not among the provided sources): timestamp,
logger name, level, message, newline, appended as one formatting op. -/
def FullFormatter.rendered (record : Record) : String :=
  "[" ++ record.timestamp ++ "] [" ++ record.logger_name.getD "" ++ "] ["
    ++ levelName record.level ++ "] " ++ record.msg ++ "\n"

/-- Modelled from the spec: `Formatter::format` for `FullFormatter`
appends the canonical rendering to the destination buffer. -/
def FullFormatter.format (record : Record) (dest : String) : String :=
  dest ++ FullFormatter.rendered record

/-- The per-call pattern context (`PatternContext`), carrying the style
range recorded so far. -/
structure PatternContext where
  style_range : Option StyleRange
  deriving DecidableEq

/-- Embeds `impl Pattern for Full`: delegate to the inner `FullFormatter` and
leave the context untouched (the source ignores `_ctx` and discards the
formatter's extra info). Returns the new buffer content and the context. -/
def Full.format (record : Record) (dest : String) (ctx : PatternContext) :
    String × PatternContext :=
  (FullFormatter.format record dest, ctx)

-- ---------------------------------------------------------------------
-- Concrete instances used by witnesses and counterexamples
-- ---------------------------------------------------------------------

def wRecordInfo : Record :=
  { level := .Info, msg := "m", timestamp := "t", logger_name := none }

def wRecordWarn : Record :=
  { level := .Warn, msg := "m", timestamp := "t", logger_name := none }

def okSink : SinkModel :=
  { level_filter := .All, logResult := fun _ => none, flushResult := none }

def failSink : SinkModel :=
  { level_filter := .All, logResult := fun _ => some (Error.WriteRecord 7),
    flushResult := none }

def wFanoutLogger : Logger :=
  { name := none, level_filter := .All, sinks := [okSink, failSink, okSink],
    flush_level_filter := .Off, periodic_flusher := none,
    error_handler := some 0 }

def wFlushLogger : Logger :=
  { name := some "core", level_filter := .All, sinks := [okSink],
    flush_level_filter := .MoreSevereEqual .Warn, periodic_flusher := none,
    error_handler := none }

def wDefaultSink : SinkModel :=
  { level_filter := .All, logResult := fun _ => some (Error.WriteRecord 7),
    flushResult := some (Error.FlushBuffer 9) }

def wDefaultLogger : Logger :=
  { name := some "core", level_filter := .All, sinks := [wDefaultSink],
    flush_level_filter := .All, periodic_flusher := none,
    error_handler := none }

def wRejectLogger : Logger :=
  { name := none, level_filter := .Off, sinks := [okSink],
    flush_level_filter := .All, periodic_flusher := none,
    error_handler := none }

def wCloneLogger : Logger :=
  { name := some "a", level_filter := .MoreSevereEqual .Info, sinks := [],
    flush_level_filter := .Off, periodic_flusher := none,
    error_handler := some 1 }

def wCloneResult : Logger :=
  { name := some "a", level_filter := .MoreSevereEqual .Info, sinks := [],
    flush_level_filter := .Off, periodic_flusher := none,
    error_handler := some 1 }

def wStyledSink : StdStreamSink :=
  { level_filter := .All, dest := .Stdout, should_render_style := true,
    level_style_codes := fun _ => { startCode := [27, 91], endCode := [27, 93] } }

def wPlainSinkStderr : StdStreamSink :=
  { level_filter := .All, dest := .Stderr, should_render_style := false,
    level_style_codes := fun _ => { startCode := [], endCode := [] } }

def wBuf : List Nat := [10, 20, 30, 40, 50]

def wRange : StyleRange := { start := 1, stop := 3 }

def cexBasicSink : BasicSink :=
  { level := .Trace, logResult := fun _ => some (Error.WriteRecord 3) }

def cexBasicLogger : BasicLogger :=
  { level := .Trace, sinks := [cexBasicSink], error_handler := none }

def cexLogRecord : LogRecord :=
  { metadata := { level := .Error }, payload := "p" }

def wRejectBasic : BasicLogger :=
  { level := .Off, sinks := [cexBasicSink], error_handler := none }

-- ---------------------------------------------------------------------
-- Shared lemmas
-- ---------------------------------------------------------------------

theorem strip_reassemble (buf : List Nat) (s e : Nat) (h1 : s ≤ e) :
    buf.take s ++ ((buf.drop s).take (e - s) ++ buf.drop e) = buf := by
  have hdd : buf.drop e = (buf.drop s).drop (e - s) := by
    rw [List.drop_drop, Nat.add_sub_cancel' h1]
  rw [hdd, List.take_append_drop, List.take_append_drop]

theorem writesOf_append (a b : List StreamEvent) :
    writesOf (a ++ b) = writesOf a ++ writesOf b :=
  List.filterMap_append a b _

theorem writesOf_map_write (ws : List (List Nat)) :
    writesOf (ws.map StreamEvent.write) = ws := by
  induction ws with
  | nil => rfl
  | cons w rest ih =>
    simp only [List.map_cons, writesOf, List.filterMap_cons]
    exact congrArg (List.cons w) ih

theorem writesOf_log_of_should_log (sink : StdStreamSink) (lvl : Level)
    (buf : List Nat) (rng : Option StyleRange)
    (hacc : sink.should_log lvl = true) :
    writesOf (sink.log lvl buf rng) = sink.logWrites lvl buf rng := by
  simp only [StdStreamSink.log, hacc]
  rw [if_neg (by simp)]
  rw [writesOf_append, writesOf_map_write]
  cases sink.dest <;> simp [writesOf, List.filterMap]

theorem isHandlerEvent_handle_error (logger : Logger) (err : Error) :
    isHandlerEvent (logger.handle_error err) = true := by
  unfold Logger.handle_error
  cases logger.error_handler <;> rfl

theorem isHandlerEvent_logCall (i : Nat) :
    isHandlerEvent (LogEvent.sinkLogCall i) = false := rfl

theorem isHandlerEvent_flushCall (i : Nat) :
    isHandlerEvent (LogEvent.sinkFlushCall i) = false := rfl

theorem logCallIndices_nil : logCallIndices [] = [] := rfl

theorem flushCallIndices_nil : flushCallIndices [] = [] := rfl

theorem logCallIndices_logCall_cons (i : Nat) (tail : List LogEvent) :
    logCallIndices (LogEvent.sinkLogCall i :: tail) = i :: logCallIndices tail :=
  rfl

theorem flushCallIndices_logCall_cons (i : Nat) (tail : List LogEvent) :
    flushCallIndices (LogEvent.sinkLogCall i :: tail) = flushCallIndices tail :=
  rfl

theorem logCallIndices_flushCall_cons (i : Nat) (tail : List LogEvent) :
    logCallIndices (LogEvent.sinkFlushCall i :: tail) = logCallIndices tail :=
  rfl

theorem flushCallIndices_flushCall_cons (i : Nat) (tail : List LogEvent) :
    flushCallIndices (LogEvent.sinkFlushCall i :: tail)
      = i :: flushCallIndices tail :=
  rfl

theorem logCallIndices_handle_error_cons (logger : Logger) (err : Error)
    (tail : List LogEvent) :
    logCallIndices (logger.handle_error err :: tail) = logCallIndices tail := by
  unfold Logger.handle_error
  cases logger.error_handler <;> rfl

theorem flushCallIndices_handle_error_cons (logger : Logger) (err : Error)
    (tail : List LogEvent) :
    flushCallIndices (logger.handle_error err :: tail) = flushCallIndices tail := by
  unfold Logger.handle_error
  cases logger.error_handler <;> rfl

theorem logCallIndices_append (a b : List LogEvent) :
    logCallIndices (a ++ b) = logCallIndices a ++ logCallIndices b :=
  List.filterMap_append a b _

theorem flushCallIndices_append (a b : List LogEvent) :
    flushCallIndices (a ++ b) = flushCallIndices a ++ flushCallIndices b :=
  List.filterMap_append a b _

theorem logCallIndices_dispatchFrom (logger : Logger) (record : Record) :
    ∀ (i : Nat) (ss : List SinkModel),
      logCallIndices (dispatchFrom logger record i ss)
        = acceptedFrom record.level i ss := by
  intro i ss
  induction ss generalizing i with
  | nil => rfl
  | cons sink rest ih =>
    unfold dispatchFrom acceptedFrom
    by_cases h : sink.should_log record.level
    · cases hr : sink.logResult record with
      | none =>
        simp [h, hr, logCallIndices_append, logCallIndices_logCall_cons,
          logCallIndices_nil, ih (i + 1)]
      | some err =>
        simp [h, hr, logCallIndices_append, logCallIndices_logCall_cons,
          logCallIndices_handle_error_cons, logCallIndices_nil, ih (i + 1)]
    · simp [h, logCallIndices_append, logCallIndices_nil, ih (i + 1)]

theorem handlerCount_dispatchFrom (logger : Logger) (record : Record) :
    ∀ (i : Nat) (ss : List SinkModel),
      (dispatchFrom logger record i ss).countP isHandlerEvent
        = ss.countP
            (fun s => s.should_log record.level && (s.logResult record).isSome) := by
  intro i ss
  induction ss generalizing i with
  | nil => rfl
  | cons sink rest ih =>
    unfold dispatchFrom
    by_cases h : sink.should_log record.level
    · cases hr : sink.logResult record with
      | none =>
        simp [h, hr, List.countP_append, List.countP_cons,
          isHandlerEvent_logCall, ih (i + 1)]
      | some err =>
        simp [h, hr, List.countP_append, List.countP_cons,
          isHandlerEvent_logCall, isHandlerEvent_handle_error logger err,
          ih (i + 1), Nat.add_comm]
    · simp [h, List.countP_append, List.countP_cons, ih (i + 1)]

theorem flushCallIndices_dispatchFrom (logger : Logger) (record : Record) :
    ∀ (i : Nat) (ss : List SinkModel),
      flushCallIndices (dispatchFrom logger record i ss) = [] := by
  intro i ss
  induction ss generalizing i with
  | nil => rfl
  | cons sink rest ih =>
    unfold dispatchFrom
    by_cases h : sink.should_log record.level
    · cases hr : sink.logResult record with
      | none =>
        simp [h, hr, flushCallIndices_append, flushCallIndices_logCall_cons,
          flushCallIndices_nil, ih (i + 1)]
      | some err =>
        simp [h, hr, flushCallIndices_append, flushCallIndices_logCall_cons,
          flushCallIndices_handle_error_cons, flushCallIndices_nil, ih (i + 1)]
    · simp [h, flushCallIndices_append, flushCallIndices_nil, ih (i + 1)]

theorem flushCallIndices_flushFrom (logger : Logger) :
    ∀ (i : Nat) (ss : List SinkModel),
      flushCallIndices (flushFrom logger i ss) = List.range' i ss.length := by
  intro i ss
  induction ss generalizing i with
  | nil => rfl
  | cons sink rest ih =>
    unfold flushFrom
    cases hr : sink.flushResult with
    | none =>
      simp [flushCallIndices_flushCall_cons, flushCallIndices_append,
        flushCallIndices_nil, ih (i + 1), List.range']
    | some err =>
      simp [flushCallIndices_flushCall_cons, flushCallIndices_append,
        flushCallIndices_handle_error_cons, flushCallIndices_nil, ih (i + 1),
        List.range']

theorem logCallIndices_flushFrom (logger : Logger) :
    ∀ (i : Nat) (ss : List SinkModel),
      logCallIndices (flushFrom logger i ss) = [] := by
  intro i ss
  induction ss generalizing i with
  | nil => rfl
  | cons sink rest ih =>
    unfold flushFrom
    cases hr : sink.flushResult with
    | none =>
      simp [logCallIndices_flushCall_cons, logCallIndices_append,
        logCallIndices_nil, ih (i + 1)]
    | some err =>
      simp [logCallIndices_flushCall_cons, logCallIndices_append,
        logCallIndices_handle_error_cons, logCallIndices_nil, ih (i + 1)]

theorem handlerCount_flushFrom (logger : Logger) :
    ∀ (i : Nat) (ss : List SinkModel),
      (flushFrom logger i ss).countP isHandlerEvent
        = ss.countP (fun s => s.flushResult.isSome) := by
  intro i ss
  induction ss generalizing i with
  | nil => rfl
  | cons sink rest ih =>
    unfold flushFrom
    cases hr : sink.flushResult with
    | none =>
      simp [hr, List.countP_append, List.countP_cons, isHandlerEvent_flushCall,
        ih (i + 1)]
    | some err =>
      simp [hr, List.countP_append, List.countP_cons, isHandlerEvent_flushCall,
        isHandlerEvent_handle_error logger err, ih (i + 1), Nat.add_comm]

theorem handler_event_dispatchFrom (logger : Logger) (record : Record) :
    ∀ (i : Nat) (ss : List SinkModel) (e : LogEvent),
      e ∈ dispatchFrom logger record i ss → isHandlerEvent e = true →
      ∃ err, e = logger.handle_error err := by
  intro i ss
  induction ss generalizing i with
  | nil => intro e he; simp [dispatchFrom] at he
  | cons sink rest ih =>
    intro e he hhand
    unfold dispatchFrom at he
    rw [List.mem_append] at he
    rcases he with he | he
    · by_cases h : sink.should_log record.level
      · rw [if_pos h] at he
        rcases List.mem_cons.mp he with rfl | he'
        · simp [isHandlerEvent] at hhand
        · cases hr : sink.logResult record with
          | none => rw [hr] at he'; simp at he'
          | some err =>
            rw [hr] at he'
            simp only [List.mem_singleton] at he'
            exact ⟨err, he'⟩
      · rw [if_neg h] at he; simp at he
    · exact ih (i + 1) e he hhand

theorem handler_event_flushFrom (logger : Logger) :
    ∀ (i : Nat) (ss : List SinkModel) (e : LogEvent),
      e ∈ flushFrom logger i ss → isHandlerEvent e = true →
      ∃ err, e = logger.handle_error err := by
  intro i ss
  induction ss generalizing i with
  | nil => intro e he; simp [flushFrom] at he
  | cons sink rest ih =>
    intro e he hhand
    unfold flushFrom at he
    rcases List.mem_cons.mp he with rfl | he'
    · simp [isHandlerEvent] at hhand
    · rw [List.mem_append] at he'
      rcases he' with he' | he'
      · cases hr : sink.flushResult with
        | none => rw [hr] at he'; simp at he'
        | some err =>
          rw [hr] at he'
          simp only [List.mem_singleton] at he'
          exact ⟨err, he'⟩
      · exact ih (i + 1) e he' hhand

theorem log_eq_of_should_log (sink : StdStreamSink) (lvl : Level)
    (buf : List Nat) (rng : Option StyleRange)
    (hacc : sink.should_log lvl = true) :
    sink.log lvl buf rng
      = (sink.logWrites lvl buf rng).map StreamEvent.write
        ++ (match sink.dest with
            | StdStream.Stdout => [StreamEvent.flush]
            | StdStream.Stderr => []) := by
  simp [StdStreamSink.log, hacc]

theorem isFlushEvent_count_map_write (ws : List (List Nat)) :
    (ws.map StreamEvent.write).countP isFlushEvent = 0 := by
  induction ws with
  | nil => rfl
  | cons w rest ih => simp [List.countP_cons, isFlushEvent, ih]

-- ---------------------------------------------------------------------
-- Claim theorems
-- ---------------------------------------------------------------------

/-- Claim C1: for a record accepted by the sink's level filter, when
styling is enabled and the formatter reports a style range,
`StdStreamSink::log` writes the buffer in exactly five separate write
calls, in order: bytes before the range, the level's start escape code,
bytes inside the range, the level's end escape code, bytes after the
range; when styling is disabled or no style range exists it writes the
whole buffer in a single call; and concatenating the three non-escape
writes reproduces the unstyled buffer byte-for-byte (stripping the
inserted escape codes recovers the unstyled rendering). -/
theorem stdStreamSink_styled_write_sequence (sink : StdStreamSink)
    (lvl : Level) (buf : List Nat) (r : StyleRange)
    (hacc : sink.should_log lvl = true)
    (h1 : r.start ≤ r.stop) (h2 : r.stop ≤ buf.length) :
    (sink.should_render_style = true →
        writesOf (sink.log lvl buf (some r)) =
          [buf.take r.start,
           (sink.level_style_codes lvl).startCode,
           (buf.drop r.start).take (r.stop - r.start),
           (sink.level_style_codes lvl).endCode,
           buf.drop r.stop]
      ∧ buf.take r.start
          ++ ((buf.drop r.start).take (r.stop - r.start) ++ buf.drop r.stop)
          = buf)
  ∧ (sink.should_render_style = false →
      ∀ rng : Option StyleRange, writesOf (sink.log lvl buf rng) = [buf])
  ∧ writesOf (sink.log lvl buf none) = [buf] := by
  refine ⟨fun hstyle => ⟨?_, strip_reassemble buf r.start r.stop h1⟩,
    fun hstyle rng => ?_, ?_⟩
  · rw [writesOf_log_of_should_log sink lvl buf (some r) hacc]
    simp [StdStreamSink.logWrites, hstyle]
  · rw [writesOf_log_of_should_log sink lvl buf rng hacc]
    cases rng <;> simp [StdStreamSink.logWrites, hstyle]
  · rw [writesOf_log_of_should_log sink lvl buf none hacc]
    cases hsr : sink.should_render_style <;>
      simp [StdStreamSink.logWrites, hsr]

theorem stdStreamSink_styled_write_sequence_witness :
    (wStyledSink.should_log Level.Info = true
      ∧ wRange.start ≤ wRange.stop ∧ wRange.stop ≤ wBuf.length)
  ∧ ((wStyledSink.should_render_style = true →
        writesOf (wStyledSink.log Level.Info wBuf (some wRange)) =
          [wBuf.take wRange.start,
           (wStyledSink.level_style_codes Level.Info).startCode,
           (wBuf.drop wRange.start).take (wRange.stop - wRange.start),
           (wStyledSink.level_style_codes Level.Info).endCode,
           wBuf.drop wRange.stop]
      ∧ wBuf.take wRange.start
          ++ ((wBuf.drop wRange.start).take (wRange.stop - wRange.start)
              ++ wBuf.drop wRange.stop)
          = wBuf)
    ∧ (wStyledSink.should_render_style = false →
        ∀ rng : Option StyleRange,
          writesOf (wStyledSink.log Level.Info wBuf rng) = [wBuf])
    ∧ writesOf (wStyledSink.log Level.Info wBuf none) = [wBuf]) :=
  ⟨⟨by decide, by decide, by decide⟩,
   stdStreamSink_styled_write_sequence wStyledSink Level.Info wBuf wRange
     (by decide) (by decide) (by decide)⟩

/-- Claim C2: for every record that passes the logger's log-level filter,
the logger attempts exactly the sinks (in insertion order) whose own level
filter accepts the record, and the error handler is invoked exactly once
per failing sink, with dispatch continuing past failures to all remaining
sinks. -/
theorem logger_fanout_isolation (logger : Logger) (record : Record)
    (h : logger.should_log record.level = true) :
    logCallIndices (logger.log record)
      = acceptedFrom record.level 0 logger.sinks
  ∧ (dispatchFrom logger record 0 logger.sinks).countP isHandlerEvent
      = logger.sinks.countP
          (fun s => s.should_log record.level && (s.logResult record).isSome) := by
  constructor
  · rw [show logger.log record = logger.sink_record record from by
      simp [Logger.log, h]]
    unfold Logger.sink_record
    rw [logCallIndices_append, logCallIndices_dispatchFrom]
    by_cases hf : logger.should_flush record = true
    · simp [hf, Logger.flush, Logger.flush_sinks, logCallIndices_flushFrom]
    · simp [hf, logCallIndices_nil]
  · exact handlerCount_dispatchFrom logger record 0 logger.sinks

theorem logger_fanout_isolation_witness :
    wFanoutLogger.should_log wRecordInfo.level = true
  ∧ (logCallIndices (wFanoutLogger.log wRecordInfo)
       = acceptedFrom wRecordInfo.level 0 wFanoutLogger.sinks
     ∧ (dispatchFrom wFanoutLogger wRecordInfo 0 wFanoutLogger.sinks).countP
          isHandlerEvent
       = wFanoutLogger.sinks.countP
           (fun s => s.should_log wRecordInfo.level
             && (s.logResult wRecordInfo).isSome))
  ∧ logCallIndices (wFanoutLogger.log wRecordInfo) = [0, 1, 2]
  ∧ (dispatchFrom wFanoutLogger wRecordInfo 0 wFanoutLogger.sinks).countP
      isHandlerEvent = 1 :=
  ⟨by decide,
   logger_fanout_isolation wFanoutLogger wRecordInfo (by decide),
   by decide, by decide⟩

/-- Claim C3: for every record that passes the logger's log-level filter,
after all sinks are attempted the logger performs a full flush pass over
every sink in insertion order if and only if the flush-level filter
accepts the record's level, regardless of whether any sink actually
logged. -/
theorem logger_flush_pass_iff (logger : Logger) (record : Record)
    (h : logger.should_log record.level = true) :
    flushCallIndices (logger.log record)
      = if logger.should_flush record = true
        then List.range logger.sinks.length else [] := by
  rw [show logger.log record = logger.sink_record record from by
    simp [Logger.log, h]]
  unfold Logger.sink_record
  rw [flushCallIndices_append, flushCallIndices_dispatchFrom]
  by_cases hf : logger.should_flush record = true
  · simp [hf, Logger.flush, Logger.flush_sinks, flushCallIndices_flushFrom,
      List.range_eq_range']
  · simp [hf, flushCallIndices_nil]

theorem logger_flush_pass_iff_witness :
    (wFlushLogger.should_log wRecordInfo.level = true
      ∧ wFlushLogger.should_log wRecordWarn.level = true)
  ∧ flushCallIndices (wFlushLogger.log wRecordInfo)
      = (if wFlushLogger.should_flush wRecordInfo = true
         then List.range wFlushLogger.sinks.length else [])
  ∧ flushCallIndices (wFlushLogger.log wRecordWarn)
      = (if wFlushLogger.should_flush wRecordWarn = true
         then List.range wFlushLogger.sinks.length else [])
  ∧ flushCallIndices (wFlushLogger.log wRecordInfo) = []
  ∧ flushCallIndices (wFlushLogger.log wRecordWarn) = [0] :=
  ⟨⟨by decide, by decide⟩,
   logger_flush_pass_iff wFlushLogger wRecordInfo (by decide),
   logger_flush_pass_iff wFlushLogger wRecordWarn (by decide),
   by decide, by decide⟩

/-- Claim C4: after the writes of one accepted record, `StdStreamSink::log`
flushes the destination if and only if the destination is the buffered
stream (stdout); stderr is never flushed per record, only by the explicit
`flush()` operation. -/
theorem stdStreamSink_flush_asymmetry (sink : StdStreamSink) (lvl : Level)
    (buf : List Nat) (rng : Option StyleRange)
    (hacc : sink.should_log lvl = true) :
    ((sink.log lvl buf rng).countP isFlushEvent
       = if sink.dest = StdStream.Stdout then 1 else 0)
  ∧ (sink.dest = StdStream.Stderr →
      ∀ e ∈ sink.log lvl buf rng, isFlushEvent e = false)
  ∧ sink.flushOp = [StreamEvent.flush] := by
  refine ⟨?_, ?_, rfl⟩
  · rw [log_eq_of_should_log sink lvl buf rng hacc, List.countP_append,
      isFlushEvent_count_map_write]
    cases hd : sink.dest <;> simp [hd, isFlushEvent, List.countP_cons]
  · intro hd e he
    rw [log_eq_of_should_log sink lvl buf rng hacc, hd] at he
    simp only [List.append_nil] at he
    rcases List.mem_map.mp he with ⟨w, _, rfl⟩
    rfl

theorem stdStreamSink_flush_asymmetry_witness :
    (wStyledSink.should_log Level.Info = true
      ∧ wPlainSinkStderr.should_log Level.Info = true)
  ∧ ((wStyledSink.log Level.Info wBuf none).countP isFlushEvent
       = if wStyledSink.dest = StdStream.Stdout then 1 else 0)
  ∧ ((wPlainSinkStderr.log Level.Info wBuf none).countP isFlushEvent
       = if wPlainSinkStderr.dest = StdStream.Stdout then 1 else 0)
  ∧ (wStyledSink.log Level.Info wBuf none).countP isFlushEvent = 1
  ∧ (wPlainSinkStderr.log Level.Info wBuf none).countP isFlushEvent = 0 :=
  ⟨⟨by decide, by decide⟩,
   (stdStreamSink_flush_asymmetry wStyledSink Level.Info wBuf none
     (by decide)).1,
   (stdStreamSink_flush_asymmetry wPlainSinkStderr Level.Info wBuf none
     (by decide)).1,
   by decide, by decide⟩

/-- Claim C5 (amended): in `Logger`, when no error handler is configured,
every handler event produced by log dispatch is a single default-handler
diagnostic line identifying the logger by name (or the `*no name*`
placeholder), exactly one per failing sink operation; `BasicLogger`,
however, silently ignores per-sink errors when no handler is configured
(see the counterexample). -/
theorem logger_default_handler_diagnostic (logger : Logger) (record : Record)
    (hn : logger.error_handler = none)
    (h : logger.should_log record.level = true) :
    (∀ e ∈ logger.log record, isHandlerEvent e = true →
        ∃ err, e = LogEvent.defaultHandlerPrint logger.diagnosticName err)
  ∧ (logger.log record).countP isHandlerEvent
      = logger.sinks.countP
          (fun s => s.should_log record.level && (s.logResult record).isSome)
        + (if logger.should_flush record = true
           then logger.sinks.countP (fun s => s.flushResult.isSome) else 0) := by
  have hlog : logger.log record = logger.sink_record record := by
    simp [Logger.log, h]
  constructor
  · intro e he hhand
    rw [hlog] at he
    unfold Logger.sink_record at he
    rw [List.mem_append] at he
    have hex : ∃ err, e = logger.handle_error err := by
      rcases he with he | he
      · exact handler_event_dispatchFrom logger record 0 logger.sinks e he hhand
      · by_cases hf : logger.should_flush record = true
        · rw [if_pos hf] at he
          exact handler_event_flushFrom logger 0 logger.sinks e he hhand
        · rw [if_neg hf] at he
          simp at he
    rcases hex with ⟨err, rfl⟩
    refine ⟨err, ?_⟩
    simp [Logger.handle_error, hn]
  · rw [hlog]
    unfold Logger.sink_record
    rw [List.countP_append, handlerCount_dispatchFrom]
    by_cases hf : logger.should_flush record = true
    · simp [hf, Logger.flush, Logger.flush_sinks, handlerCount_flushFrom]
    · simp [hf]

theorem logger_default_handler_diagnostic_witness :
    (wDefaultLogger.error_handler = none
      ∧ wDefaultLogger.should_log wRecordInfo.level = true)
  ∧ ((∀ e ∈ wDefaultLogger.log wRecordInfo, isHandlerEvent e = true →
        ∃ err,
          e = LogEvent.defaultHandlerPrint wDefaultLogger.diagnosticName err)
     ∧ (wDefaultLogger.log wRecordInfo).countP isHandlerEvent
         = wDefaultLogger.sinks.countP
             (fun s => s.should_log wRecordInfo.level
               && (s.logResult wRecordInfo).isSome)
           + (if wDefaultLogger.should_flush wRecordInfo = true
              then wDefaultLogger.sinks.countP (fun s => s.flushResult.isSome)
              else 0))
  ∧ (wDefaultLogger.log wRecordInfo).countP isHandlerEvent = 2 :=
  ⟨⟨rfl, by decide⟩,
   logger_default_handler_diagnostic wDefaultLogger wRecordInfo rfl (by decide),
   by decide⟩

/-- Claim C5 counterexample: a `BasicLogger` with one accepting, failing
sink and no configured error handler produces no handler event at all —
the per-sink error is silently ignored, no default diagnostic line is
printed, contradicting the claim for `BasicLogger::sink_record`. -/
theorem basicLogger_silent_drop_counterexample :
    cexBasicLogger.error_handler = none
  ∧ cexBasicSink.enabled cexLogRecord.metadata = true
  ∧ (cexBasicSink.logResult (LogMsg.new cexLogRecord)).isSome = true
  ∧ (cexBasicLogger.log cexLogRecord).countP isHandlerEvent = 0
  ∧ cexBasicLogger.log cexLogRecord = [LogEvent.sinkLogCall 0] :=
  ⟨rfl, rfl, rfl, rfl, rfl⟩

/-- Claim C6: for every record whose level is rejected by the logger's
log-level filter, `Logger::log` (and `BasicLogger::log`) returns
immediately: no sink is invoked and no event is produced. -/
theorem logger_rejected_level_no_dispatch (logger : Logger) (record : Record)
    (h : logger.should_log record.level = false)
    (bl : BasicLogger) (r : LogRecord)
    (hb : bl.enabled r.metadata = false) :
    logger.log record = [] ∧ bl.log r = [] := by
  constructor
  · simp [Logger.log, h]
  · simp [BasicLogger.log, hb]

theorem logger_rejected_level_no_dispatch_witness :
    (wRejectLogger.should_log wRecordInfo.level = false
      ∧ wRejectBasic.enabled cexLogRecord.metadata = false)
  ∧ (wRejectLogger.log wRecordInfo = []
      ∧ wRejectBasic.log cexLogRecord = []) :=
  ⟨⟨by decide, by decide⟩,
   logger_rejected_level_no_dispatch wRejectLogger wRecordInfo (by decide)
     wRejectBasic cexLogRecord (by decide)⟩

/-- Claim C7: cloning a `Logger` that owns a live periodic-flush worker
panics; cloning one with no live worker succeeds and yields a copy with
the same name, copied level filters, the same sink instances, and no
periodic worker. -/
theorem logger_clone_contract (logger : Logger) :
    ((∃ msg, logger.clone = Except.error msg)
        ↔ logger.periodic_flusher.isSome = true)
  ∧ ∀ l', logger.clone = Except.ok l' →
      l'.name = logger.name
        ∧ l'.level_filter = logger.level_filter
        ∧ l'.sinks = logger.sinks
        ∧ l'.flush_level_filter = logger.flush_level_filter
        ∧ l'.periodic_flusher = none
        ∧ l'.error_handler = logger.error_handler := by
  cases hp : logger.periodic_flusher with
  | some w =>
    constructor
    · simp [Logger.clone, hp]
    · intro l' hcl
      simp [Logger.clone, hp] at hcl
  | none =>
    constructor
    · simp [Logger.clone, hp]
    · intro l' hcl
      simp only [Logger.clone, hp, Except.ok.injEq] at hcl
      subst hcl
      exact ⟨rfl, rfl, rfl, rfl, rfl, rfl⟩

theorem logger_clone_contract_witness :
    wCloneLogger.clone = Except.ok wCloneResult
  ∧ (wCloneResult.name = wCloneLogger.name
      ∧ wCloneResult.level_filter = wCloneLogger.level_filter
      ∧ wCloneResult.sinks = wCloneLogger.sinks
      ∧ wCloneResult.flush_level_filter = wCloneLogger.flush_level_filter
      ∧ wCloneResult.periodic_flusher = none
      ∧ wCloneResult.error_handler = wCloneLogger.error_handler) :=
  ⟨rfl, (logger_clone_contract wCloneLogger).2 wCloneResult rfl⟩

/-- Claim C8: `set_flush_period` always terminates any existing worker
before possibly starting a new one (so at most one worker is live
afterwards, exactly when an interval was given); the installed callback
performs a full sink-flush pass and signals continue exactly when the
weak back-reference resolves, and signals stop when the logger has been
destroyed. -/
theorem set_flush_period_contract (logger : Logger) (interval : Option Nat) :
    ((logger.set_flush_period interval).1.periodic_flusher.isSome
        = interval.isSome)
  ∧ ((logger.set_flush_period interval).2
      = (if logger.periodic_flusher.isSome then [WorkerAction.terminate]
         else [])
        ++ (match interval with
            | some iv => [WorkerAction.start iv]
            | none => []))
  ∧ (∀ l, flushPeriodCallback (some l) = (true, l.flush_sinks))
  ∧ flushPeriodCallback none = (false, [])
  ∧ ∀ l : Logger,
      flushCallIndices l.flush_sinks = List.range l.sinks.length := by
  refine ⟨?_, ?_, fun l => rfl, rfl, fun l => ?_⟩
  · cases interval <;> cases hp : logger.periodic_flusher <;>
      simp [Logger.set_flush_period, hp]
  · cases interval <;> cases hp : logger.periodic_flusher <;>
      simp [Logger.set_flush_period, hp]
  · simp [Logger.flush_sinks, flushCallIndices_flushFrom,
      List.range_eq_range']

/-- Claim C9: the sink's should-render-style flag is `true` for mode
`Always`, `false` for mode `Never` (so no escape codes are ever emitted),
and for `Auto` it is `true` iff the destination stream is an interactive
terminal and the platform escape-sequence capability probe succeeds. -/
theorem should_render_style_mode_table (platform : Platform)
    (stream : StdStream) :
    should_render_style platform StyleMode.Always stream = true
  ∧ should_render_style platform StyleMode.Never stream = false
  ∧ (should_render_style platform StyleMode.Auto stream = true ↔
      platform.stream_is_terminal stream = true
        ∧ platform.enable_ansi_escape_sequences = true)
  ∧ ∀ (lf : LevelFilter) (d : StdStream) (codes : Level → StyleCode)
      (lvl : Level) (buf : List Nat) (rng : Option StyleRange),
      StdStreamSink.logWrites
        { level_filter := lf, dest := d,
          should_render_style :=
            should_render_style platform StyleMode.Never stream,
          level_style_codes := codes } lvl buf rng = [buf] := by
  refine ⟨rfl, rfl, ?_, ?_⟩
  · simp [should_render_style, Bool.and_eq_true]
  · intro lf d codes lvl buf rng
    cases rng <;> rfl

/-- Claim C10: formatting with the pre-built delegate-to-full-formatter
pattern appends to the buffer exactly the bytes of the canonical default
full rendering (timestamp, level, logger name, message, newline), for
every record and every prior buffer state, and leaves the pattern context
untouched. -/
theorem full_pattern_delegates (record : Record) (dest : String)
    (ctx : PatternContext) :
    (Full.format record dest ctx).1 = dest ++ FullFormatter.rendered record
  ∧ (Full.format record dest ctx).2 = ctx :=
  ⟨rfl, rfl⟩

end Spdlog
